import Mathlib

/-!
Shallow embedding of the mapsdrawer annotation engine (src/main.js and the
near-identical second entry point src/unnamed/part_000).

Numbers are modelled as exact rationals.  The host distance primitive
(Leaflet's `latlng.distanceTo`) is an external collaborator, so every
geometric function is parametrised by a distance function `Dist`.
-/

namespace MapsDrawer

/-- A latitude/longitude pair, as produced by `L.latLng`. -/
structure Point where
  lat : ℚ
  lng : ℚ
deriving DecidableEq, Repr

/-- The host distance primitive `a.distanceTo b`, in meters. -/
abbrev Dist := Point → Point → ℚ

/-- `WALKING_SPEED_FT_PER_SEC` from src/main.js line 15. -/
def WALKING_SPEED_FT_PER_SEC : ℚ := 3

/-- `METERS_TO_FEET` from src/main.js line 16. -/
def METERS_TO_FEET : ℚ := 3.28084

/-- `LINE_COLORS` from src/main.js line 19. -/
def LINE_COLORS : List String :=
  ["#3388ff", "#ff6b6b", "#4ecdc4", "#45b7d1", "#96ceb4", "#ffeaa7", "#dfe6e9", "#fd79a8"]

/-- Consecutive vertex pairs of a polyline, in order. -/
def pairs : List Point → List (Point × Point)
  | a :: b :: rest => (a, b) :: pairs (b :: rest)
  | _ => []

/-- `calculateDistance` from src/main.js lines 80-86: sum of consecutive
pairwise distances in meters, converted to feet at the end. -/
def calculateDistance (dist : Dist) (latlngs : List Point) : ℚ :=
  ((pairs latlngs).map fun p => dist p.1 p.2).sum * METERS_TO_FEET

/-- `formatTime` from src/main.js lines 89-96 (short form).  JS
`Math.round` rounds half away from zero toward positive infinity, which on
rationals is Mathlib's `round`. -/
def formatTime (seconds : ℚ) : String :=
  let mins : ℤ := round (seconds / 60)
  if mins = 0 then "<1m" else toString mins ++ "m"

/-- `formatTimeLong` from src/main.js lines 99-108 (long form). -/
def formatTimeLong (seconds : ℚ) : String :=
  let mins : ℤ := round (seconds / 60)
  if mins = 0 then "<1 min"
  else if mins = 1 then "1 min"
  else toString mins ++ " min"

/-- One entry of the `segments` array built inside `getMidpoint`
(src/main.js lines 117-122). -/
structure Segment where
  start : Point
  stop : Point
  length : ℚ
deriving DecidableEq, Repr

/-- The `segments` array of `getMidpoint`: one segment per consecutive
vertex pair, with its host distance. -/
def mkSegments (dist : Dist) (latlngs : List Point) : List Segment :=
  (pairs latlngs).map fun p => ⟨p.1, p.2, dist p.1 p.2⟩

/-- The accumulation loop of `getMidpoint` (src/main.js lines 126-135):
returns the first segment (with the length accumulated before it) whose
accumulated end reaches `midDistance`, or `none` if the loop falls
through. -/
def findSeg (midDistance : ℚ) (acc : ℚ) : List Segment → Option (Segment × ℚ)
  | [] => none
  | seg :: rest =>
    if midDistance ≤ acc + seg.length then some (seg, acc)
    else findSeg midDistance (acc + seg.length) rest

/-- The linear lat/lng interpolation of `getMidpoint` (src/main.js lines
129-132): `start + (stop - start) * r` componentwise. -/
def lerp (seg : Segment) (r : ℚ) : Point :=
  ⟨seg.start.lat + (seg.stop.lat - seg.start.lat) * r,
   seg.start.lng + (seg.stop.lng - seg.start.lng) * r⟩

/-- `getMidpoint` from src/main.js lines 111-137 (the spec's
`pathMidpointByArcLength`).  The fallback index `latlngs.length / 2` uses
Nat division, which is JS `Math.floor(latlngs.length / 2)`; the index is
always in bounds there, so `getD` with a dummy default is faithful. -/
def getMidpoint (dist : Dist) (latlngs : List Point) : Option Point :=
  match latlngs with
  | [] => none
  | [p] => some p
  | _ :: _ :: _ =>
    let segs := mkSegments dist latlngs
    let totalLength := (segs.map Segment.length).sum
    let midDistance := totalLength / 2
    match findSeg midDistance 0 segs with
    | some (seg, acc) => some (lerp seg ((midDistance - acc) / seg.length))
    | none => some (latlngs.getD (latlngs.length / 2) ⟨0, 0⟩)

/-- `getSegmentMidpoint` from src/main.js lines 162-167. -/
def getSegmentMidpoint (a b : Point) : Point :=
  ⟨(a.lat + b.lat) / 2, (a.lng + b.lng) / 2⟩

/-- One rendered label marker: its anchor position, its text, and the
color baked into its html (`createSegmentLabel` / `createTotalLabel`). -/
structure Label where
  pos : Point
  text : String
  color : String
deriving DecidableEq, Repr

/-- The segment label built in the loop of `updateLineLabel`
(src/main.js lines 190-200). -/
def segLabel (color : String) (seg : Segment) : Label :=
  ⟨getSegmentMidpoint seg.start seg.stop,
   formatTime (seg.length * METERS_TO_FEET / WALKING_SPEED_FT_PER_SEC),
   color⟩

/-- The label list built by `updateLineLabel` (src/main.js lines 170-208)
for a line with the given vertices and color: nothing when fewer than two
vertices, otherwise one short-format label per segment plus a
`"Total: "`-prefixed label at the last vertex. -/
def computeLabels (dist : Dist) (latlngs : List Point) (color : String) : List Label :=
  if latlngs.length < 2 then []
  else
    let segs := mkSegments dist latlngs
    let totalFeet := (segs.map fun s => s.length * METERS_TO_FEET).sum
    segs.map (segLabel color) ++
      [⟨latlngs.getLastD ⟨0, 0⟩,
        "Total: " ++ formatTime (totalFeet / WALKING_SPEED_FT_PER_SEC),
        color⟩]

/-- The per-line record stored in the `lines` map (src/main.js lines
309-315): the polyline's current vertices, its color, its number, and its
rendered labels. -/
structure LineData where
  latlngs : List Point
  color : String
  number : Nat
  labels : List Label
deriving DecidableEq, Repr

/-- The undo actions pushed by the CREATED handler and by `deleteLine`
(src/main.js lines 284-290 and 318). -/
inductive UndoAction where
  | create (lineId : String)
  | delete (lineId : String) (latlngs : List Point) (color : String) (number : Nat)
deriving DecidableEq, Repr

/-- `MAX_UNDO` from src/main.js line 27. -/
def MAX_UNDO : Nat := 10

/-- `pushUndo` from src/main.js lines 29-34: push at the back, then shift
the front element off once the length exceeds `MAX_UNDO`. -/
def pushUndo (stack : List UndoAction) (action : UndoAction) : List UndoAction :=
  if MAX_UNDO < (stack ++ [action]).length then (stack ++ [action]).tail
  else stack ++ [action]

/-- Lookup in the `lines` map, modelled as an insertion-ordered
association list (JS `Map.get`). -/
def getAL (k : String) : List (String × LineData) → Option LineData
  | [] => none
  | (k', v) :: rest => if k' = k then some v else getAL k rest

/-- JS `Map.set`: replace in place when the key exists, append otherwise. -/
def setAL (k : String) (v : LineData) : List (String × LineData) → List (String × LineData)
  | [] => [(k, v)]
  | (k', v') :: rest => if k' = k then (k, v) :: rest else (k', v') :: setAL k v rest

/-- JS `Map.delete`. -/
def delAL (k : String) : List (String × LineData) → List (String × LineData)
  | [] => []
  | (k', v') :: rest => if k' = k then rest else (k', v') :: delAL k rest

/-- The mutable module state of src/main.js: `lineCounter` (line 20),
the `lines` map (line 23) and `undoStack` (line 26). -/
structure AppState where
  lineCounter : Nat
  lines : List (String × LineData)
  undoStack : List UndoAction
deriving DecidableEq, Repr

/-- The id string assigned at creation and restore (src/main.js lines 299
and 500). -/
def lineId (n : Nat) : String := "line-" ++ toString n

/-- The CREATED handler, src/main.js lines 296-323: bump the counter,
assign the palette color by `(lineCounter - 1) % LINE_COLORS.length`,
store the line, push a create action and build its labels. -/
def createLine (dist : Dist) (st : AppState) (latlngs : List Point) : AppState :=
  let counter := st.lineCounter + 1
  let id := lineId counter
  let color := LINE_COLORS.getD ((counter - 1) % LINE_COLORS.length) ""
  let data : LineData := ⟨latlngs, color, counter, computeLabels dist latlngs color⟩
  { lineCounter := counter
    lines := setAL id data st.lines
    undoStack := pushUndo st.undoStack (.create id) }

/-- `removeLineFromMap` from src/main.js lines 266-276: delete the entry
and its rendered labels when the id is known, otherwise do nothing. -/
def removeLineFromMap (st : AppState) (id : String) : AppState :=
  match getAL id st.lines with
  | none => st
  | some _ => { st with lines := delAL id st.lines }

/-- `deleteLine` from src/main.js lines 279-293 (user-initiated sidebar
delete): snapshot the line into a delete action, then remove it. -/
def deleteLine (st : AppState) (id : String) : AppState :=
  match getAL id st.lines with
  | none => st
  | some data =>
    let st' := { st with
      undoStack := pushUndo st.undoStack (.delete id data.latlngs data.color data.number) }
    removeLineFromMap st' id

/-- `restoreLine` from src/main.js lines 499-515: rebuild the line under
the id derived from its number, with the snapshotted vertices and color,
and regenerate its labels. -/
def restoreLine (dist : Dist) (st : AppState) (latlngs : List Point) (color : String)
    (number : Nat) : AppState :=
  let id := lineId number
  let data : LineData := ⟨latlngs, color, number, computeLabels dist latlngs color⟩
  { st with lines := setAL id data st.lines }

/-- The clear-all button handler, src/main.js lines 452-457: empty the
`lines` map (and the rendered layers); the undo stack is untouched. -/
def clearAll (st : AppState) : AppState :=
  { st with lines := [] }

/-- The Ctrl+Z handler, src/main.js lines 518-532: no-op when the stack
is empty, otherwise pop the last action and invert it. -/
def undo (dist : Dist) (st : AppState) : AppState :=
  match st.undoStack.getLast? with
  | none => st
  | some (.create id) =>
    removeLineFromMap { st with undoStack := st.undoStack.dropLast } id
  | some (.delete _ latlngs color number) =>
    restoreLine dist { st with undoStack := st.undoStack.dropLast } latlngs color number

/-- The EDITED handler, src/main.js lines 326-333: for a layer the map
still tracks, replace its vertices and rebuild its labels; an unknown id
is ignored inside `updateLineLabel`. -/
def editLine (dist : Dist) (st : AppState) (id : String) (latlngs : List Point) : AppState :=
  match getAL id st.lines with
  | none => st
  | some data =>
    { st with
      lines := setAL id
        { data with latlngs := latlngs, labels := computeLabels dist latlngs data.color }
        st.lines }

/-- A concrete all-zero distance function, used to instantiate theorems. -/
def zeroDist : Dist := fun _ _ => 0

/-- A concrete 100-meter distance function, used to instantiate theorems. -/
def dist100 : Dist := fun _ _ => 100

/-- A concrete distance function that is zero exactly on coincident
points, used to instantiate theorems. -/
def discreteDist : Dist := fun a b => if a = b then 0 else 1

/-- The empty start state of the program. -/
def initState : AppState := ⟨0, [], []⟩

/-- True when an optional undo action is a delete snapshot. -/
def isDelete : Option UndoAction → Bool
  | some (.delete _ _ _ _) => true
  | _ => false

end MapsDrawer

namespace MapsDrawer

theorem getAL_setAL_same (k : String) (v : LineData) :
    ∀ l : List (String × LineData), getAL k (setAL k v l) = some v := by
  intro l
  induction l with
  | nil => simp [setAL, getAL]
  | cons hd tl ih =>
    obtain ⟨k', v'⟩ := hd
    by_cases h : k' = k
    · simp [setAL, getAL, h]
    · simp [setAL, getAL, h, ih]

theorem delAL_setAL_fresh (k : String) (v : LineData) :
    ∀ l : List (String × LineData), getAL k l = none → delAL k (setAL k v l) = l := by
  intro l
  induction l with
  | nil => intro _; simp [setAL, delAL]
  | cons hd tl ih =>
    obtain ⟨k', v'⟩ := hd
    intro h
    by_cases hk : k' = k
    · simp [getAL, hk] at h
    · simp [getAL, hk] at h
      simp [setAL, delAL, hk, ih h]

theorem pushUndo_getLast (s : List UndoAction) (a : UndoAction) :
    (pushUndo s a).getLast? = some a := by
  unfold pushUndo
  split
  next h =>
    cases s with
    | nil => simp [MAX_UNDO] at h
    | cons x xs => simp [List.getLast?_concat]
  next => simp [List.getLast?_concat]

theorem pushUndo_length_le (s : List UndoAction) (a : UndoAction)
    (h : s.length ≤ MAX_UNDO) : (pushUndo s a).length ≤ MAX_UNDO := by
  unfold pushUndo
  split
  next hlt => simp_all [MAX_UNDO]
  next hle => simp_all [MAX_UNDO]

theorem pushUndo_of_lt (s : List UndoAction) (a : UndoAction)
    (h : s.length < MAX_UNDO) : pushUndo s a = s ++ [a] := by
  unfold pushUndo
  rw [if_neg]
  simp [MAX_UNDO] at h ⊢
  omega

theorem pushUndo_of_eq (s : List UndoAction) (a : UndoAction)
    (h : s.length = MAX_UNDO) : pushUndo s a = s.tail ++ [a] := by
  cases s with
  | nil => simp [MAX_UNDO] at h
  | cons x xs =>
    unfold pushUndo
    rw [if_pos]
    · simp
    · simp [MAX_UNDO] at h ⊢
      omega

theorem removeLineFromMap_undoStack (st : AppState) (id : String) :
    (removeLineFromMap st id).undoStack = st.undoStack := by
  unfold removeLineFromMap
  split <;> rfl

theorem removeLineFromMap_lineCounter (st : AppState) (id : String) :
    (removeLineFromMap st id).lineCounter = st.lineCounter := by
  unfold removeLineFromMap
  split <;> rfl

theorem undo_undoStack (dist : Dist) (st : AppState) :
    (undo dist st).undoStack = st.undoStack.dropLast := by
  unfold undo
  split
  next h =>
    rw [List.getLast?_eq_none_iff] at h
    simp [h]
  next id h => simp [removeLineFromMap_undoStack]
  next id latlngs color number h => simp [restoreLine]

theorem undo_lineCounter (dist : Dist) (st : AppState) :
    (undo dist st).lineCounter = st.lineCounter := by
  unfold undo
  split
  · rfl
  · simp [removeLineFromMap_lineCounter]
  · simp [restoreLine]

theorem foldl_pushUndo (acts : List UndoAction) :
    ∀ s : List UndoAction, s.length ≤ MAX_UNDO →
      List.foldl pushUndo s acts = (s ++ acts).drop (s.length + acts.length - MAX_UNDO) := by
  induction acts with
  | nil =>
    intro s h
    simp [Nat.sub_eq_zero_of_le h]
  | cons a acts ih =>
    intro s h
    rw [List.foldl_cons, ih (pushUndo s a) (pushUndo_length_le s a h)]
    by_cases hlt : s.length < MAX_UNDO
    · rw [pushUndo_of_lt s a hlt]
      simp only [List.length_append, List.length_cons, List.length_singleton,
        List.append_assoc, List.singleton_append]
      congr 1
      simp [MAX_UNDO]
      omega
    · have heq : s.length = MAX_UNDO := le_antisymm h (not_lt.mp hlt)
      rw [pushUndo_of_eq s a heq]
      cases s with
      | nil => simp [MAX_UNDO] at heq
      | cons x xs =>
        have hxs : xs.length = MAX_UNDO - 1 := by
          simp at heq; simp [MAX_UNDO] at heq ⊢; omega
        have e1 : (xs ++ [a]).length + acts.length - MAX_UNDO = acts.length := by
          simp [MAX_UNDO] at hxs ⊢; omega
        have e2 : (x :: xs).length + (a :: acts).length - MAX_UNDO = acts.length + 1 := by
          simp [MAX_UNDO] at hxs ⊢; omega
        rw [List.tail_cons, e1, e2, List.append_assoc, List.singleton_append,
          List.cons_append, List.drop_succ_cons]

end MapsDrawer

namespace MapsDrawer

theorem deleteLine_lineCounter (st : AppState) (id : String) :
    (deleteLine st id).lineCounter = st.lineCounter := by
  unfold deleteLine
  split
  · rfl
  · simp [removeLineFromMap_lineCounter]

theorem editLine_lineCounter (dist : Dist) (st : AppState) (id : String) (vs : List Point) :
    (editLine dist st id vs).lineCounter = st.lineCounter := by
  unfold editLine
  split <;> rfl

theorem pairs_length : ∀ l : List Point, (pairs l).length = l.length - 1 := by
  intro l
  induction l with
  | nil => simp [pairs]
  | cons a t ih =>
    cases t with
    | nil => simp [pairs]
    | cons b r =>
      simp [pairs] at ih ⊢
      omega

theorem mkSegments_length (dist : Dist) (l : List Point) :
    (mkSegments dist l).length = l.length - 1 := by
  simp [mkSegments, pairs_length]

theorem findSeg_exists :
    ∀ (segs : List Segment) (a m : ℚ), segs ≠ [] →
      m ≤ a + (segs.map Segment.length).sum →
      ∃ s b, findSeg m a segs = some (s, b) := by
  intro segs
  induction segs with
  | nil => intro a m h _; exact absurd rfl h
  | cons s ss ih =>
    intro a m _ hm
    by_cases hc : m ≤ a + s.length
    · exact ⟨s, a, by simp [findSeg, if_pos hc]⟩
    · cases ss with
      | nil =>
        exfalso
        simp at hm
        exact hc hm
      | cons t ts =>
        obtain ⟨s', b, hb⟩ := ih (a + s.length) m (by simp)
          (by simp at hm ⊢; linarith)
        exact ⟨s', b, by rw [findSeg, if_neg hc]; exact hb⟩

theorem findSeg_pos :
    ∀ (segs : List Segment) (a m : ℚ), (∀ s ∈ segs, 0 ≤ s.length) →
      a < m → m ≤ a + (segs.map Segment.length).sum →
      ∃ s b, findSeg m a segs = some (s, b) ∧ b < m ∧ m ≤ b + s.length := by
  intro segs
  induction segs with
  | nil =>
    intro a m _ ha hm
    simp at hm
    exact absurd (lt_of_lt_of_le ha hm) (lt_irrefl a)
  | cons s ss ih =>
    intro a m hnn ha hm
    by_cases hc : m ≤ a + s.length
    · exact ⟨s, a, by simp [findSeg, if_pos hc], ha, hc⟩
    · push_neg at hc
      obtain ⟨s', b, hb, hb1, hb2⟩ := ih (a + s.length) m
        (fun x hx => hnn x (List.mem_cons_of_mem s hx)) hc
        (by simp at hm ⊢; linarith)
      exact ⟨s', b, by simp [findSeg, if_neg (not_le.mpr hc), hb], hb1, hb2⟩

theorem sum_segLengths_eq (dist : Dist) (l : List Point) :
    ((mkSegments dist l).map fun s => s.length * METERS_TO_FEET).sum =
      calculateDistance dist l := by
  unfold mkSegments calculateDistance
  rw [List.map_map]
  exact List.sum_map_mul_right (pairs l) (fun p => dist p.1 p.2) METERS_TO_FEET

end MapsDrawer

namespace MapsDrawer

theorem round_div60_eq_zero (q : ℚ) (h0 : 0 ≤ q) (h : q < 30) :
    round (q / 60) = 0 := by
  rw [round_eq, Int.floor_eq_zero_iff, Set.mem_Ico]
  constructor
  · linarith
  · linarith

theorem round_div60_eq_one (q : ℚ) (h1 : 30 ≤ q) (h2 : q < 90) :
    round (q / 60) = 1 := by
  rw [round_eq, Int.floor_eq_iff]
  constructor
  · push_cast
    linarith
  · push_cast
    linarith

/-- C7: both time formatters round seconds to the nearest minute with the
half-minute boundary rounding up: seconds in [0, 30) give "<1m" / "<1 min",
seconds in [30, 90) give "1m" / "1 min", and exactly 30 seconds rounds up
to one minute. -/
theorem time_format_rounding (q : ℚ) (h0 : 0 ≤ q) :
    (q < 30 → formatTime q = "<1m" ∧ formatTimeLong q = "<1 min") ∧
    (30 ≤ q → q < 90 → formatTime q = "1m" ∧ formatTimeLong q = "1 min") ∧
    formatTime 30 = "1m" ∧ formatTimeLong 30 = "1 min" := by
  have hr30 : round ((30:ℚ) / 60) = 1 := round_div60_eq_one 30 le_rfl (by norm_num)
  refine ⟨fun h => ?_, fun h1 h2 => ?_, ?_, ?_⟩
  · have hr := round_div60_eq_zero q h0 h
    exact ⟨by simp [formatTime, hr], by simp [formatTimeLong, hr]⟩
  · have hr := round_div60_eq_one q h1 h2
    constructor
    · simp only [formatTime, hr]
      decide
    · simp only [formatTimeLong, hr]
      decide
  · simp only [formatTime, hr30]
    decide
  · simp only [formatTimeLong, hr30]
    decide

/-- Witness for C7 at zero seconds. -/
theorem time_format_rounding_witness :
    formatTime 0 = "<1m" ∧ formatTimeLong 0 = "<1 min" :=
  (time_format_rounding 0 le_rfl).1 (by norm_num)

/-- C9: an unknown path id supplied to the sidebar delete, the internal
removal, or the edit handler leaves any state `st` untouched (whatever its
undo log holds), and undo on any state `su` whose undo stack is empty
leaves `su` untouched (whatever its registry holds); no error is raised
(all the operations are total functions). -/
theorem unknown_id_noop (dist : Dist) (st su : AppState) (id : String) (vs : List Point)
    (h1 : getAL id st.lines = none) (h2 : su.undoStack = []) :
    deleteLine st id = st ∧ removeLineFromMap st id = st ∧
    editLine dist st id vs = st ∧ undo dist su = su := by
  refine ⟨?_, ?_, ?_, ?_⟩
  · unfold deleteLine
    rw [h1]
  · unfold removeLineFromMap
    rw [h1]
  · unfold editLine
    rw [h1]
  · unfold undo
    rw [h2]
    rfl

/-- Witness for C9: the unknown-id part runs on the state reached by
creating a line and deleting it from the sidebar, where the id is stale
and the undo log is non-empty; the empty-log undo part runs on a state
whose registry holds a line. -/
theorem unknown_id_noop_witness :
    deleteLine (deleteLine (createLine zeroDist initState []) (lineId 1)) (lineId 1) =
      deleteLine (createLine zeroDist initState []) (lineId 1) ∧
    removeLineFromMap (deleteLine (createLine zeroDist initState []) (lineId 1)) (lineId 1) =
      deleteLine (createLine zeroDist initState []) (lineId 1) ∧
    editLine zeroDist (deleteLine (createLine zeroDist initState []) (lineId 1)) (lineId 1)
        [] =
      deleteLine (createLine zeroDist initState []) (lineId 1) ∧
    undo zeroDist ⟨1, [(lineId 1, ⟨[], "#3388ff", 1, []⟩)], []⟩ =
      ⟨1, [(lineId 1, ⟨[], "#3388ff", 1, []⟩)], []⟩ :=
  unknown_id_noop zeroDist (deleteLine (createLine zeroDist initState []) (lineId 1))
    ⟨1, [(lineId 1, ⟨[], "#3388ff", 1, []⟩)], []⟩ (lineId 1) [] (by decide) rfl

end MapsDrawer

namespace MapsDrawer

/-- C4: the undo stack holds at most `MAX_UNDO` (10) entries whenever it
did before a push; push appends at the back; below capacity it only
appends, at capacity it also drops the oldest entry from the front; undo
pops from the back; pushing 11 actions onto an empty stack leaves exactly
the 10 most recent. -/
theorem undoLog_capacity (s acts : List UndoAction) (a : UndoAction) (dist : Dist)
    (st : AppState) (hs : s.length ≤ MAX_UNDO) (hacts : acts.length = 11) :
    (pushUndo s a).length ≤ MAX_UNDO ∧
    (pushUndo s a).getLast? = some a ∧
    (s.length < MAX_UNDO → pushUndo s a = s ++ [a]) ∧
    (s.length = MAX_UNDO → pushUndo s a = s.tail ++ [a]) ∧
    (undo dist st).undoStack = st.undoStack.dropLast ∧
    List.foldl pushUndo [] acts = acts.drop 1 := by
  refine ⟨pushUndo_length_le s a hs, pushUndo_getLast s a,
    fun h => pushUndo_of_lt s a h, fun h => pushUndo_of_eq s a h,
    undo_undoStack dist st, ?_⟩
  rw [foldl_pushUndo acts [] (by simp [MAX_UNDO])]
  simp [hacts, MAX_UNDO]

/-- Witness for C4: a full stack, a list of 11 actions, and the empty
start state. -/
theorem undoLog_capacity_witness :
    (pushUndo (List.replicate 10 (.create "a")) (.create "b")).length ≤ MAX_UNDO ∧
    (pushUndo (List.replicate 10 (.create "a")) (.create "b")).getLast? =
      some (.create "b") ∧
    ((List.replicate 10 (UndoAction.create "a")).length < MAX_UNDO →
      pushUndo (List.replicate 10 (.create "a")) (.create "b") =
        List.replicate 10 (.create "a") ++ [.create "b"]) ∧
    ((List.replicate 10 (UndoAction.create "a")).length = MAX_UNDO →
      pushUndo (List.replicate 10 (.create "a")) (.create "b") =
        (List.replicate 10 (UndoAction.create "a")).tail ++ [.create "b"]) ∧
    (undo zeroDist initState).undoStack = initState.undoStack.dropLast ∧
    List.foldl pushUndo [] (List.replicate 11 (.create "c")) =
      (List.replicate 11 (UndoAction.create "c")).drop 1 :=
  undoLog_capacity (List.replicate 10 (.create "a")) (List.replicate 11 (.create "c"))
    (.create "b") zeroDist initState (by decide) (by decide)

/-- C8: the line created when the counter stands at `c` gets sequence
number `i = c + 1` and color `LINE_COLORS[(i - 1) % 8]`, whatever the
current registry contains, and no delete, removal, clear, undo, or edit
ever changes the creation counter, so the color depends only on creation
order. -/
theorem color_from_sequence (dist : Dist) (st : AppState) (latlngs vs : List Point)
    (id : String) :
    getAL (lineId (st.lineCounter + 1)) (createLine dist st latlngs).lines =
      some ⟨latlngs,
            LINE_COLORS.getD ((st.lineCounter + 1 - 1) % LINE_COLORS.length) "",
            st.lineCounter + 1,
            computeLabels dist latlngs
              (LINE_COLORS.getD ((st.lineCounter + 1 - 1) % LINE_COLORS.length) "")⟩ ∧
    (createLine dist st latlngs).lineCounter = st.lineCounter + 1 ∧
    (deleteLine st id).lineCounter = st.lineCounter ∧
    (removeLineFromMap st id).lineCounter = st.lineCounter ∧
    (clearAll st).lineCounter = st.lineCounter ∧
    (undo dist st).lineCounter = st.lineCounter ∧
    (editLine dist st id vs).lineCounter = st.lineCounter := by
  refine ⟨?_, rfl, deleteLine_lineCounter st id, removeLineFromMap_lineCounter st id,
    rfl, undo_lineCounter dist st, editLine_lineCounter dist st id vs⟩
  unfold createLine
  exact getAL_setAL_same _ _ st.lines

theorem removeLineFromMap_of_some (st : AppState) (id : String) (d : LineData)
    (h : getAL id st.lines = some d) :
    removeLineFromMap st id = { st with lines := delAL id st.lines } := by
  unfold removeLineFromMap
  rw [h]

theorem deleteLine_of_some (st : AppState) (id : String) (d : LineData)
    (h : getAL id st.lines = some d) :
    deleteLine st id =
      removeLineFromMap
        { st with undoStack := pushUndo st.undoStack (.delete id d.latlngs d.color d.number) }
        id := by
  unfold deleteLine
  rw [h]

theorem undo_getLast_create (dist : Dist) (st : AppState) (id : String)
    (h : st.undoStack.getLast? = some (.create id)) :
    undo dist st =
      removeLineFromMap { st with undoStack := st.undoStack.dropLast } id := by
  unfold undo
  rw [h]

theorem undo_getLast_delete (dist : Dist) (st : AppState) (id : String)
    (latlngs : List Point) (color : String) (number : Nat)
    (h : st.undoStack.getLast? = some (.delete id latlngs color number)) :
    undo dist st =
      restoreLine dist { st with undoStack := st.undoStack.dropLast } latlngs color
        number := by
  unfold undo
  rw [h]

/-- C5: creating a line and then calling undo removes exactly that line,
leaving the registry as it was (hence with the same count), and the undo
leaves the stack equal to the post-create stack with its last entry
popped: it pushes nothing new. -/
theorem create_undo_roundtrip (dist : Dist) (st : AppState) (latlngs : List Point)
    (h : getAL (lineId (st.lineCounter + 1)) st.lines = none) :
    (undo dist (createLine dist st latlngs)).lines = st.lines ∧
    (undo dist (createLine dist st latlngs)).lines.length = st.lines.length ∧
    (undo dist (createLine dist st latlngs)).undoStack =
      (createLine dist st latlngs).undoStack.dropLast := by
  have hlines : (undo dist (createLine dist st latlngs)).lines = st.lines := by
    rw [undo_getLast_create dist _ (lineId (st.lineCounter + 1))
      (pushUndo_getLast st.undoStack (.create (lineId (st.lineCounter + 1))))]
    rw [removeLineFromMap_of_some _ _ _
      (getAL_setAL_same (lineId (st.lineCounter + 1)) _ st.lines)]
    exact delAL_setAL_fresh _ _ st.lines h
  exact ⟨hlines, by rw [hlines], undo_undoStack dist (createLine dist st latlngs)⟩

/-- Witness for C5 on the empty start state. -/
theorem create_undo_roundtrip_witness :
    (undo zeroDist (createLine zeroDist initState [])).lines = initState.lines ∧
    (undo zeroDist (createLine zeroDist initState [])).lines.length =
      initState.lines.length ∧
    (undo zeroDist (createLine zeroDist initState [])).undoStack =
      (createLine zeroDist initState []).undoStack.dropLast :=
  create_undo_roundtrip zeroDist initState [] (by decide)

end MapsDrawer

namespace MapsDrawer

/-- Counterexample for C2: create a line, delete it from the sidebar,
clear all, then undo — the deleted line is resurrected, so the registry
is not empty. -/
theorem clearAll_undo_cex :
    (undo zeroDist
      (clearAll (deleteLine (createLine zeroDist initState []) (lineId 1)))).lines ≠ [] := by
  decide

/-- C2 (amended): clearing does not interact with the undo log, and
clearAll followed by undo leaves the registry empty provided the most
recent undo entry is not a delete snapshot; a most-recent delete entry is
replayed by undo and resurrects that one path. -/
theorem clearAll_undo_amended (dist : Dist) (st : AppState)
    (h : isDelete st.undoStack.getLast? = false) :
    (clearAll st).undoStack = st.undoStack ∧
    (undo dist (clearAll st)).lines = [] := by
  refine ⟨rfl, ?_⟩
  unfold undo
  cases hc : (clearAll st).undoStack.getLast? with
  | none => rfl
  | some a =>
    cases a with
    | create id =>
      unfold removeLineFromMap
      have : getAL id (clearAll st).lines = none := rfl
      cases hg : getAL id ({ clearAll st with
          undoStack := (clearAll st).undoStack.dropLast } : AppState).lines with
      | none => rfl
      | some d => exact absurd hg (by simp [clearAll, getAL])
    | delete id latlngs color number =>
      exfalso
      have : isDelete st.undoStack.getLast? = true := by
        rw [show st.undoStack = (clearAll st).undoStack from rfl, hc]
        rfl
      rw [this] at h
      simp at h

/-- Witness for C2 (amended): a state whose most recent undo entry is a
create action. -/
theorem clearAll_undo_amended_witness :
    (clearAll ⟨0, [], [.create "line-1"]⟩).undoStack = [UndoAction.create "line-1"] ∧
    (undo zeroDist (clearAll ⟨0, [], [.create "line-1"]⟩)).lines = [] :=
  clearAll_undo_amended zeroDist ⟨0, [], [.create "line-1"]⟩ (by decide)

/-- C3: user-initiated sidebar deletion of a registered line followed by
undo restores an entry under the identical id, with identical vertices,
color and sequence number, and labels regenerated by the same label
computation, hence equal in count and text to the originals. -/
theorem delete_undo_restores (dist : Dist) (st : AppState) (id : String) (data : LineData)
    (h1 : getAL id st.lines = some data)
    (h2 : id = lineId data.number)
    (h3 : data.labels = computeLabels dist data.latlngs data.color) :
    getAL id (undo dist (deleteLine st id)).lines = some data ∧
    (∃ d, getAL id (undo dist (deleteLine st id)).lines = some d ∧
      d.latlngs = data.latlngs ∧ d.color = data.color ∧ d.number = data.number ∧
      d.labels.length = data.labels.length ∧
      d.labels.map Label.text = data.labels.map Label.text) := by
  have key : getAL id (undo dist (deleteLine st id)).lines = some data := by
    simp only [deleteLine, removeLineFromMap, undo, restoreLine, h1, pushUndo_getLast,
      ← h2, getAL_setAL_same, ← h3]
  exact ⟨key, data, key, rfl, rfl, rfl, rfl, rfl⟩

/-- Witness for C3: create a line with no vertices, delete it from the
sidebar, undo, and find it back unchanged. -/
theorem delete_undo_restores_witness :
    getAL (lineId 1)
      (undo zeroDist (deleteLine (createLine zeroDist initState []) (lineId 1))).lines =
      some ⟨[], "#3388ff", 1, []⟩ :=
  (delete_undo_restores zeroDist (createLine zeroDist initState []) (lineId 1)
    ⟨[], "#3388ff", 1, []⟩ (by decide) (by decide) (by decide)).1

end MapsDrawer

namespace MapsDrawer

theorem computeLabels_getLast (dist : Dist) (latlngs : List Point) (color : String)
    (p : Point) (h2 : 2 ≤ latlngs.length) (hl : latlngs.getLast? = some p) :
    (computeLabels dist latlngs color).getLast? =
      some ⟨p,
        "Total: " ++
          formatTime (calculateDistance dist latlngs / WALKING_SPEED_FT_PER_SEC),
        color⟩ := by
  simp only [computeLabels, if_neg (show ¬latlngs.length < 2 by omega),
    List.getLast?_concat, List.getLastD_eq_getLast?, hl, sum_segLengths_eq,
    Option.getD_some]

/-- Counterexample for C1: with a 100-meter segment the total label reads
"Total: 2m" (short rule), not "Total: 2 min" (long rule) as the claim
states. -/
theorem total_label_long_cex :
    ((computeLabels dist100 [⟨0, 0⟩, ⟨0, 1⟩] "#3388ff").getLast?).map Label.text ≠
      some ("Total: " ++
        formatTimeLong
          (calculateDistance dist100 [⟨0, 0⟩, ⟨0, 1⟩] / WALKING_SPEED_FT_PER_SEC)) := by
  rw [computeLabels_getLast dist100 [⟨0, 0⟩, ⟨0, 1⟩] "#3388ff" ⟨0, 1⟩ (by decide)
    (by decide)]
  have hT : calculateDistance dist100 [⟨0, 0⟩, ⟨0, 1⟩] / WALKING_SPEED_FT_PER_SEC =
      328084 / 3000 := by
    norm_num [calculateDistance, pairs, dist100, METERS_TO_FEET, WALKING_SPEED_FT_PER_SEC]
  have hr : round ((328084 / 3000 : ℚ) / 60) = 2 := by norm_num [round_eq]
  rw [hT]
  simp only [formatTime, formatTimeLong, hr, Option.map_some']
  decide

/-- C1 (amended): for every path with at least 2 vertices, the total
label placed at the path's last vertex has text "Total: " followed by the
walking time for the path's full length (full length in feet divided by 3
ft/s) formatted by the short time rule ("<1m" / "<N>m"). -/
theorem total_label_short (dist : Dist) (latlngs : List Point) (color : String)
    (p : Point) (h2 : 2 ≤ latlngs.length) (hl : latlngs.getLast? = some p) :
    (computeLabels dist latlngs color).getLast? =
      some ⟨p,
        "Total: " ++
          formatTime (calculateDistance dist latlngs / WALKING_SPEED_FT_PER_SEC),
        color⟩ :=
  computeLabels_getLast dist latlngs color p h2 hl

/-- Witness for C1 (amended) on a concrete two-vertex path. -/
theorem total_label_short_witness :
    (computeLabels zeroDist [⟨0, 0⟩, ⟨0, 1⟩] "#3388ff").getLast? =
      some ⟨⟨0, 1⟩,
        "Total: " ++
          formatTime
            (calculateDistance zeroDist [⟨0, 0⟩, ⟨0, 1⟩] / WALKING_SPEED_FT_PER_SEC),
        "#3388ff"⟩ :=
  total_label_short zeroDist [⟨0, 0⟩, ⟨0, 1⟩] "#3388ff" ⟨0, 1⟩ (by decide) (by decide)

end MapsDrawer

namespace MapsDrawer

theorem getMidpoint_of_findSeg (dist : Dist) (a b : Point) (rest : List Point)
    (seg : Segment) (acc : ℚ)
    (h : findSeg (((mkSegments dist (a :: b :: rest)).map Segment.length).sum / 2) 0
        (mkSegments dist (a :: b :: rest)) = some (seg, acc)) :
    getMidpoint dist (a :: b :: rest) =
      some (lerp seg
        ((((mkSegments dist (a :: b :: rest)).map Segment.length).sum / 2 - acc) /
          seg.length)) := by
  simp only [getMidpoint, h]

theorem sum_lengths_nonneg (dist : Dist) (latlngs : List Point)
    (hnn : ∀ s ∈ mkSegments dist latlngs, 0 ≤ s.length) :
    0 ≤ ((mkSegments dist latlngs).map Segment.length).sum := by
  apply List.sum_nonneg
  intro x hx
  obtain ⟨s, hs, hsx⟩ := List.mem_map.mp hx
  exact hsx ▸ hnn s hs

/-- C6: pathMidpointByArcLength (the source's getMidpoint) returns none
for an empty vertex list, the single vertex for a one-element list, and
otherwise the linear lat/lng interpolation (the same interpolation whose
half-point is segmentMidpoint) inside the first segment at which the
accumulated length reaches half the total; in particular on vertices
(0,0) and (0,2) it returns (0,1). -/
theorem pathMidpoint_cases (dist : Dist) (p : Point) (latlngs : List Point)
    (hd : 0 < dist ⟨0, 0⟩ ⟨0, 2⟩)
    (h2 : 2 ≤ latlngs.length)
    (hnn : ∀ s ∈ mkSegments dist latlngs, 0 ≤ s.length) :
    getMidpoint dist [] = none ∧
    getMidpoint dist [p] = some p ∧
    (∃ seg acc,
      findSeg (((mkSegments dist latlngs).map Segment.length).sum / 2) 0
          (mkSegments dist latlngs) = some (seg, acc) ∧
      getMidpoint dist latlngs =
        some (lerp seg
          ((((mkSegments dist latlngs).map Segment.length).sum / 2 - acc) /
            seg.length))) ∧
    (∀ seg : Segment, lerp seg (1 / 2) = getSegmentMidpoint seg.start seg.stop) ∧
    getMidpoint dist [⟨0, 0⟩, ⟨0, 2⟩] = some ⟨0, 1⟩ := by
  refine ⟨rfl, rfl, ?_, ?_, ?_⟩
  · match latlngs, h2 with
    | a :: b :: rest, _ =>
      have hne : mkSegments dist (a :: b :: rest) ≠ [] := by
        simp [mkSegments, pairs]
      have htot := sum_lengths_nonneg dist (a :: b :: rest) hnn
      obtain ⟨seg, acc, hfs⟩ :=
        findSeg_exists (mkSegments dist (a :: b :: rest)) 0
          (((mkSegments dist (a :: b :: rest)).map Segment.length).sum / 2) hne
          (by linarith)
      exact ⟨seg, acc, hfs, getMidpoint_of_findSeg dist a b rest seg acc hfs⟩
  · intro seg
    unfold lerp getSegmentMidpoint
    simp only [Point.mk.injEq]
    constructor
    · ring
    · ring
  · have hd' : dist ⟨0, 0⟩ ⟨0, 2⟩ ≠ 0 := ne_of_gt hd
    have e0 : ((mkSegments dist [⟨0, 0⟩, ⟨0, 2⟩]).map Segment.length).sum =
        dist ⟨0, 0⟩ ⟨0, 2⟩ := by
      simp [mkSegments, pairs]
    have hf : findSeg (((mkSegments dist [⟨0, 0⟩, ⟨0, 2⟩]).map Segment.length).sum / 2) 0
        (mkSegments dist [⟨0, 0⟩, ⟨0, 2⟩]) =
        some (⟨⟨0, 0⟩, ⟨0, 2⟩, dist ⟨0, 0⟩ ⟨0, 2⟩⟩, 0) := by
      rw [e0]
      simp only [mkSegments, pairs, List.map_cons, List.map_nil, findSeg]
      rw [if_pos (by linarith)]
    rw [getMidpoint_of_findSeg dist ⟨0, 0⟩ ⟨0, 2⟩ [] ⟨⟨0, 0⟩, ⟨0, 2⟩, dist ⟨0, 0⟩ ⟨0, 2⟩⟩
      0 hf]
    rw [e0]
    unfold lerp
    simp only [Option.some.injEq, Point.mk.injEq]
    constructor
    · ring
    · field_simp

/-- Witness for C6: the concrete two-vertex path from (0,0) to (0,2)
under a 100-meter distance function. -/
theorem pathMidpoint_cases_witness :
    getMidpoint dist100 [⟨0, 0⟩, ⟨0, 2⟩] = some ⟨0, 1⟩ :=
  (pathMidpoint_cases dist100 ⟨3, 4⟩ [⟨0, 0⟩, ⟨0, 2⟩] (by norm_num [dist100])
    (by decide) (by decide)).2.2.2.2

/-- C10: for every vertex list of length at least 2 with nonnegative
segment lengths and strictly positive total length, the accumulation loop
returns from inside at a segment of strictly positive length (so the
ratio divisor is nonzero and the floor(n/2) fallback is unreachable);
with the positivity dropped — two coincident vertices whose mutual
distance is zero — the branch taken has a zero divisor. -/
theorem midpoint_divisor_safety (dist : Dist) (latlngs : List Point)
    (h2 : 2 ≤ latlngs.length)
    (hnn : ∀ s ∈ mkSegments dist latlngs, 0 ≤ s.length)
    (hpos : 0 < ((mkSegments dist latlngs).map Segment.length).sum)
    (hz : dist ⟨0, 0⟩ ⟨0, 0⟩ = 0) :
    (∃ seg acc,
      findSeg (((mkSegments dist latlngs).map Segment.length).sum / 2) 0
          (mkSegments dist latlngs) = some (seg, acc) ∧
      0 < seg.length ∧
      getMidpoint dist latlngs =
        some (lerp seg
          ((((mkSegments dist latlngs).map Segment.length).sum / 2 - acc) /
            seg.length))) ∧
    (∃ seg acc,
      findSeg (((mkSegments dist [⟨0, 0⟩, ⟨0, 0⟩]).map Segment.length).sum / 2) 0
          (mkSegments dist [⟨0, 0⟩, ⟨0, 0⟩]) = some (seg, acc) ∧
      seg.length = 0) := by
  constructor
  · match latlngs, h2, hnn, hpos with
    | a :: b :: rest, _, hnn, hpos =>
      obtain ⟨seg, acc, hfs, hacc, hreach⟩ :=
        findSeg_pos (mkSegments dist (a :: b :: rest)) 0
          (((mkSegments dist (a :: b :: rest)).map Segment.length).sum / 2) hnn
          (by linarith) (by linarith)
      exact ⟨seg, acc, hfs, by linarith,
        getMidpoint_of_findSeg dist a b rest seg acc hfs⟩
  · refine ⟨⟨⟨0, 0⟩, ⟨0, 0⟩, dist ⟨0, 0⟩ ⟨0, 0⟩⟩, 0, ?_, hz⟩
    simp only [mkSegments, pairs, List.map_cons, List.map_nil, findSeg, hz]
    rw [if_pos (by norm_num [hz])]

/-- Witness for C10: a distance function that is zero exactly on
coincident points, on the path from (0,0) to (0,1). -/
theorem midpoint_divisor_safety_witness :
    ∃ seg acc,
      findSeg (((mkSegments discreteDist [⟨0, 0⟩, ⟨0, 0⟩]).map Segment.length).sum / 2) 0
          (mkSegments discreteDist [⟨0, 0⟩, ⟨0, 0⟩]) = some (seg, acc) ∧
      seg.length = 0 :=
  (midpoint_divisor_safety discreteDist [⟨0, 0⟩, ⟨0, 1⟩] (by decide) (by decide)
    (by norm_num [mkSegments, pairs, discreteDist, Point.mk.injEq]) (by decide)).2

end MapsDrawer
